import Mathlib

/-!
Shallow embedding of `ramfs/ramtree/file.go` from joushou/g9ptools: an
in-memory 9P file tree (`RAMFile` / `RAMOpenFile` for files and their open
sessions, `RAMTree` / `RAMOpenTree` for directories and their open sessions).

Modelling conventions:
* A Go byte slice is a `GoSlice`: the backing array (up to its capacity)
  plus the slice length.  `s.arr.length` plays the role of `cap`, and the
  visible content is `s.arr.take s.len`.  This is needed because the source
  slices the content beyond its length (`content[:offset]` with
  `offset > len(content)`), whose outcome depends on capacity and on the
  bytes retained in the backing array.
* Bytes and machine words are `Nat`; the `uint32` fields that overflow
  (`version`, the `Unix()` timestamps) are reduced `% 2^32` where the code
  increments or casts them.
* `time.Now()` is modelled by threading an explicit `now : Nat` argument
  into each operation that reads the clock.
* The external permission predicate `permCheck` (supplied by the `ramfs`
  package, outside this file) is passed as an explicit argument `pc`.
* Go's `map[string]fileserver.File` is modelled as an association list in
  insertion order (a deterministic stand-in for the unordered map; the
  source's iteration order is unspecified).
* Fallible operations return `GoResult`; a Go run-time panic (out-of-range
  slice expression) is the distinguished `GoResult.panic` outcome.
* An open session holds a pointer to its node; the model embeds the node
  in the session, and shared mutation through another alias is expressed
  by substituting the mutated node back into the session.
* The node identifier allocator (`nextID`, defined elsewhere in the
  package) is modelled by passing the fresh identifier as an argument.
* The parent back-reference (`parent`, `SetParent`, `Parent`) is not
  modelled: no operation verified here consults it.
-/

namespace Ramtree

/-- Result of a Go call: normal value, error return, or run-time panic. -/
inductive GoResult (α : Type) where
  | ok : α → GoResult α
  | err : String → GoResult α
  | panic : String → GoResult α
deriving Repr, DecidableEq

/-- A Go byte slice: backing array (its length is the capacity) and the
slice length.  Visible content is `arr.take len`. -/
structure GoSlice where
  arr : List Nat
  len : Nat
deriving Repr, DecidableEq

/-- The visible bytes of a slice: `arr.take len`. -/
def GoSlice.bytes (s : GoSlice) : List Nat := s.arr.take s.len

/-- Capacity of a slice: the backing array's length. -/
def GoSlice.cap (s : GoSlice) : Nat := s.arr.length

/-- `make([]byte, n)`: `n` zero bytes, length = capacity = `n`. -/
def goMake (n : Nat) : GoSlice := ⟨List.replicate n 0, n⟩

/-- Overwrite `k` entries of `arr` starting at `pos` with the first `k`
entries of `data`; models the effect of Go's `copy` on the destination's
backing array (all uses satisfy `pos + k ≤ arr.length` and
`k ≤ data.length`, so the length is preserved). -/
def spliceAt (arr : List Nat) (pos k : Nat) (data : List Nat) : List Nat :=
  arr.take pos ++ data.take k ++ arr.drop (pos + k)

/-- `x++` on a `uint32` field. -/
def bump32 (v : Nat) : Nat := (v + 1) % 2 ^ 32

/-- `uint32(t.Unix())`: the timestamp reduced to 32 bits. -/
def u32 (n : Nat) : Nat := n % 2 ^ 32

/-- 9P Qid type bit for directories (`protocol.QTDIR`). -/
def QTDIR : Nat := 0x80

/-- 9P Qid type for plain files (`protocol.QTFILE`). -/
def QTFILE : Nat := 0

/-- 9P mode bit marking a directory (`protocol.DMDIR`). -/
def DMDIR : Nat := 0x80000000

/-- 9P open mode `protocol.OREAD`. -/
def OREAD : Nat := 0

/-- 9P open mode `protocol.OWRITE`. -/
def OWRITE : Nat := 1

/-- 9P open mode `protocol.OEXEC`. -/
def OEXEC : Nat := 3

/-- Bitwise complement on `uint32`: `^FileMode(m)` in Go. -/
def comp32 (m : Nat) : Nat := (2 ^ 32 - 1) ^^^ m

/-- The sentinel `^uint64(0)` marking "length unchanged" in `WriteStat`. -/
def lenUnchanged : Nat := 2 ^ 64 - 1

/-- `protocol.Qid`: identity + version triple. -/
structure Qid where
  type : Nat
  version : Nat
  path : Nat
deriving Repr, DecidableEq

/-- The fields of `protocol.Stat` that this package reads or writes. -/
structure Stat where
  qid : Qid
  mode : Nat
  name : String
  length : Nat
  uid : String
  gid : String
  muid : String
  atime : Nat
  mtime : Nat
deriving Repr, DecidableEq

/-- The external permission predicate `permCheck(owner, mode, access)`,
supplied by the surrounding `ramfs` package. -/
def PermCheck : Type := Bool → Nat → Nat → Bool

/-- `RAMFile`: a file node.  Field order follows the Go struct; the
`parent` back-reference is omitted (unused by the verified operations). -/
structure RAMFile where
  content : GoSlice
  id : Nat
  name : String
  user : String
  group : String
  muser : String
  atime : Nat
  mtime : Nat
  version : Nat
  permissions : Nat
  opens : Nat
deriving Repr, DecidableEq

/-- `RAMOpenFile`: an open-file session; `f = none` models the nil node
pointer of a closed session. -/
structure RAMOpenFile where
  offset : Int
  f : Option RAMFile
deriving Repr, DecidableEq

/-- `NewRAMFile`, with the allocator-provided id and the clock passed in. -/
def NewRAMFile (name : String) (permissions : Nat) (user group : String)
    (id now : Nat) : RAMFile :=
  { content := ⟨[], 0⟩
    id := id
    name := name
    user := user
    group := group
    muser := user
    atime := now
    mtime := now
    version := 0
    permissions := permissions
    opens := 0 }

/-- `RAMFile.Qid`. -/
def RAMFile.Qid (f : RAMFile) : Qid :=
  { type := QTFILE, version := f.version, path := f.id }

/-- `RAMFile.Stat`: note the source fills `GID` and `MUID` from `f.user`,
not from `f.group` / `f.muser`. -/
def RAMFile.Stat (f : RAMFile) : Stat :=
  { qid := f.Qid
    mode := f.permissions
    name := f.name
    length := f.content.len
    uid := f.user
    gid := f.user
    muid := f.user
    atime := u32 f.atime
    mtime := u32 f.mtime }

/-- `RAMFile.WriteStat`: truncate (never extend) when the length field is
not the "unchanged" sentinel, then overwrite name/owner/group/permissions,
refresh the times and bump the version. -/
def RAMFile.WriteStat (f : RAMFile) (s : Ramtree.Stat) (now : Nat) :
    GoResult RAMFile :=
  if s.length ≠ lenUnchanged then
    if s.length > f.content.len then .err "cannot extend length"
    else
      .ok { f with
              content := ⟨f.content.arr, s.length⟩
              name := s.name
              user := s.uid
              group := s.gid
              permissions := s.mode
              mtime := now
              atime := now
              version := bump32 f.version }
  else
    .ok { f with
            name := s.name
            user := s.uid
            group := s.gid
            permissions := s.mode
            mtime := now
            atime := now
            version := bump32 f.version }

/-- `RAMOpenFile.Read`: clamp the request to the remaining content and copy
from the content slice.  The slice expression `content[offset:maxRead+offset]`
panics when `offset` is negative, exceeds `maxRead + offset` (i.e. the
remaining count went negative because `offset > len(content)`), or the high
bound exceeds the capacity.  Returns the bytes copied out and the updated
session. -/
def RAMOpenFile.Read (of : RAMOpenFile) (plen : Nat) (now : Nat) :
    GoResult (List Nat × RAMOpenFile) :=
  match of.f with
  | none => .err "file not open"
  | some f =>
    let maxRead : Int := min (plen : Int) ((f.content.len : Int) - of.offset)
    let hi : Int := maxRead + of.offset
    if of.offset < 0 ∨ hi < of.offset ∨ (f.content.cap : Int) < hi then
      .panic "slice bounds out of range"
    else
      let lo := of.offset.toNat
      let n := maxRead.toNat
      .ok ((f.content.arr.drop lo).take n,
           { offset := of.offset + maxRead
             f := some { f with atime := now } })

/-- `RAMOpenFile.Write`: grow the buffer when `offset + len(p)` exceeds the
content length (`make` a zeroed buffer of the new size and copy the first
`offset` backing-array bytes into it — this is where bytes retained beyond
the length, within capacity, flow into the gap), then copy `p` at `offset`,
advance the cursor, refresh the times and bump the version. -/
def RAMOpenFile.Write (of : RAMOpenFile) (p : List Nat) (now : Nat) :
    GoResult (Nat × RAMOpenFile) :=
  match of.f with
  | none => .err "file not open"
  | some f =>
    let wlen : Int := p.length
    let c := f.content
    if wlen + of.offset > (c.len : Int) then
      -- growing path: content[:offset] requires 0 ≤ offset ≤ cap
      if of.offset < 0 ∨ (c.cap : Int) < of.offset then
        .panic "slice bounds out of range"
      else
        let o := of.offset.toNat
        let n := (wlen + of.offset).toNat
        -- b := make([]byte, wlen+offset); copy(b, content[:offset])
        let b : GoSlice := ⟨spliceAt (goMake n).arr 0 (min n o) c.arr, n⟩
        -- copy(content[offset:], p)
        let k := min p.length (n - o)
        let c2 : GoSlice := ⟨spliceAt b.arr o k p, n⟩
        .ok (p.length,
             { offset := of.offset + wlen
               f := some { f with
                             content := c2
                             mtime := now
                             atime := now
                             version := bump32 f.version } })
    else
      -- in-place path: content[offset:] requires 0 ≤ offset ≤ len
      if of.offset < 0 then .panic "slice bounds out of range"
      else
        let o := of.offset.toNat
        let k := min p.length (c.len - o)
        let c2 : GoSlice := ⟨spliceAt c.arr o k p, c.len⟩
        .ok (p.length,
             { offset := of.offset + wlen
               f := some { f with
                             content := c2
                             mtime := now
                             atime := now
                             version := bump32 f.version } })

/-- A node stored in a directory's mapping (`fileserver.File` in the
source): either a `RAMFile` or a nested directory.  The directory
constructor carries the `RAMTree` fields positionally (Lean's structures
cannot be mutually recursive with an inductive); `RAMTree` below packages
them and `Node.dir` converts. -/
inductive Node where
  | file (f : RAMFile)
  | dirNode (tree : List (String × Node)) (id : Nat)
      (name user group muser : String) (version atime mtime : Nat)
      (permissions : Nat) (opens : Nat)

/-- `RAMTree`: a directory node.  Field order follows the Go struct; the
`parent` back-reference is omitted as for `RAMFile`, and the unordered
`map[string]fileserver.File` is an insertion-ordered association list. -/
structure RAMTree where
  tree : List (String × Node)
  id : Nat
  name : String
  user : String
  group : String
  muser : String
  version : Nat
  atime : Nat
  mtime : Nat
  permissions : Nat
  opens : Nat

/-- Repackage a `RAMTree` as a mapping entry. -/
def Node.dir (t : RAMTree) : Node :=
  .dirNode t.tree t.id t.name t.user t.group t.muser t.version t.atime
    t.mtime t.permissions t.opens

/-- The `RAMTree` packaged by a `dirNode` entry. -/
def Node.asTree : Node → Option RAMTree
  | .file _ => none
  | .dirNode tree id name user group muser version atime mtime permissions
      opens =>
    some ⟨tree, id, name, user, group, muser, version, atime, mtime,
      permissions, opens⟩

/-- Go map lookup `m[k]` (keys are unique among siblings). -/
def mapLookup (m : List (String × Node)) (k : String) : Option Node :=
  match m with
  | [] => none
  | (k2, v) :: rest => if k2 = k then some v else mapLookup rest k

/-- Go map assignment `m[k] = v`. -/
def mapSet (m : List (String × Node)) (k : String) (v : Node) :
    List (String × Node) :=
  match m with
  | [] => [(k, v)]
  | (k2, v2) :: rest =>
    if k2 = k then (k2, v) :: rest else (k2, v2) :: mapSet rest k v

/-- Go map deletion `delete(m, k)`. -/
def mapDelete (m : List (String × Node)) (k : String) :
    List (String × Node) :=
  match m with
  | [] => []
  | (k2, v) :: rest => if k2 = k then rest else (k2, v) :: mapDelete rest k

/-- `NewRAMTree`, with the allocator-provided id and the clock passed in. -/
def NewRAMTree (name : String) (permissions : Nat) (user group : String)
    (id now : Nat) : RAMTree :=
  { tree := []
    id := id
    name := name
    user := user
    group := group
    muser := user
    version := 0
    atime := now
    mtime := now
    permissions := permissions
    opens := 0 }

/-- `RAMTree.Qid`. -/
def RAMTree.Qid (t : RAMTree) : Qid :=
  { type := QTDIR, version := t.version, path := t.id }

/-- `RAMTree.Name`: the root (empty name) reads as "/". -/
def RAMTree.Name (t : RAMTree) : String :=
  if t.name = "" then "/" else t.name

/-- `RAMTree.Stat`: unlike the file version, this one does fill `GID` and
`MUID` from `t.group` and `t.muser`; the directory bit is or-ed into the
mode and the unset `Length` field keeps Go's zero value. -/
def RAMTree.Stat (t : RAMTree) : Ramtree.Stat :=
  { qid := t.Qid
    mode := t.permissions ||| DMDIR
    name := t.Name
    length := 0
    uid := t.user
    gid := t.group
    muid := t.muser
    atime := u32 t.atime
    mtime := u32 t.mtime }

/-- `Stat` of a mapping entry, dispatching on the node kind. -/
def Node.Stat : Node → Ramtree.Stat
  | .file f => f.Stat
  | .dirNode tree id name user group muser version atime mtime permissions
      opens =>
    RAMTree.Stat ⟨tree, id, name, user, group, muser, version, atime,
      mtime, permissions, opens⟩

/-- `CanRemove` of a mapping entry: files always; directories only when
their mapping is empty. -/
def Node.CanRemove : Node → Bool
  | .file _ => true
  | .dirNode tree _ _ _ _ _ _ _ _ _ _ => tree.isEmpty

/-- Permission bits of a mapping entry. -/
def Node.permissions : Node → Nat
  | .file f => f.permissions
  | .dirNode _ _ _ _ _ _ _ _ _ permissions _ => permissions

/-- `RAMTree.WriteStat`: unconditional metadata overwrite; never fails,
ignores the length field, refreshes times and bumps the version. -/
def RAMTree.WriteStat (t : RAMTree) (s : Ramtree.Stat) (now : Nat) :
    GoResult RAMTree :=
  .ok { t with
          name := s.name
          user := s.uid
          group := s.gid
          permissions := s.mode
          atime := now
          mtime := now
          version := bump32 t.version }

/-- Modelled from the spec: the external metadata binary serializer
(`protocol.Stat.Encode` from the g9p protocol package, §6 "Metadata binary
encoding").  The verified claims depend only on where the serializer is
invoked and on concatenation of its outputs, never on its byte format, so
it is modelled as a simple flat encoding (length-prefixed strings). -/
def encString (s : String) : List Nat :=
  s.length :: s.toList.map Char.toNat

/-- Modelled from the spec: see `encString`.  Serializes one Stat record. -/
def encodeStat (s : Stat) : List Nat :=
  [s.qid.type, s.qid.version, s.qid.path, s.mode, s.length, s.atime,
    s.mtime] ++ encString s.name ++ encString s.uid ++ encString s.gid ++
    encString s.muid

/-- The serialized listing of a directory mapping: each child's `Stat`
encoded, concatenated in iteration order (the body of
`RAMOpenTree.update`'s loop). -/
def dirListing (tree : List (String × Node)) : List Nat :=
  (tree.map fun kv => encodeStat kv.2.Stat).flatten

/-- `RAMOpenTree`: an open-directory session; `t = none` models the nil
node pointer of a closed session.  `buffer` is the cached serialized
listing snapshot. -/
structure RAMOpenTree where
  t : Option RAMTree
  buffer : List Nat
  offset : Int

/-- `RAMOpenTree.update`: recompute the snapshot buffer from the live
mapping.  (Only called with the node pointer non-nil; child `Stat` calls
cannot fail, so neither can this.) -/
def RAMOpenTree.update (ot : RAMOpenTree) : RAMOpenTree :=
  match ot.t with
  | none => ot
  | some t => { ot with buffer := dirListing t.tree }

/-- `RAMOpenTree.Seek`: resolve the target offset from `whence`, reject
negative targets and any target other than 0 or the current offset, then
store the offset, recompute the snapshot via `update` (the source calls
`update` on *every* successful seek) and refresh the access time. -/
def RAMOpenTree.Seek (ot : RAMOpenTree) (offset : Int) (whence : Int)
    (now : Nat) : GoResult (Int × RAMOpenTree) :=
  match ot.t with
  | none => .err "file not open"
  | some t =>
    let length : Int := ot.buffer.length
    let target : Option Int :=
      if whence = 0 then some offset
      else if whence = 1 then some (ot.offset + offset)
      else if whence = 2 then some (length + offset)
      else none
    match target with
    | none => .err "invalid whence value"
    | some off =>
      if off < 0 then .err "negative seek invalid"
      else if off ≠ 0 ∧ off ≠ ot.offset then
        .err "seek to other than 0 on dir illegal"
      else
        let ot2 := RAMOpenTree.update { ot with offset := off }
        .ok (off, { ot2 with t := some { t with atime := now } })

/-- `RAMOpenTree.Read`: stream from the cached snapshot buffer only; the
mapping is never consulted.  Same clamping and slice-bound behavior as the
file read. -/
def RAMOpenTree.Read (ot : RAMOpenTree) (plen : Nat) (now : Nat) :
    GoResult (List Nat × RAMOpenTree) :=
  match ot.t with
  | none => .err "file not open"
  | some t =>
    let rlen : Int := min (plen : Int) ((ot.buffer.length : Int) - ot.offset)
    let hi : Int := rlen + ot.offset
    if ot.offset < 0 ∨ hi < ot.offset ∨ ((ot.buffer.length : Int) < hi) then
      .panic "slice bounds out of range"
    else
      .ok ((ot.buffer.drop ot.offset.toNat).take rlen.toNat,
           { ot with
               offset := ot.offset + rlen
               t := some { t with atime := now } })

/-- `RAMTree.Open`: permission check against the external predicate, then
refresh the access time, bump the open count and hand out a fresh session
(zero-valued buffer and offset). -/
def RAMTree.Open (pc : PermCheck) (t : RAMTree) (user : String) (mode : Nat)
    (now : Nat) : GoResult (RAMOpenTree × RAMTree) :=
  let owner := t.user == user
  if ! pc owner t.permissions mode then .err "access denied"
  else
    let t2 := { t with atime := now, opens := t.opens + 1 }
    .ok ({ t := some t2, buffer := [], offset := 0 }, t2)

/-- `RAMTree.Create`: write-permission check, name-conflict check, then
build the child with its permission bits clipped against the parent's
(`0777` class for a new directory, `0666` class for a new file), insert it
and bump the directory's times and version. -/
def RAMTree.Create (pc : PermCheck) (t : RAMTree) (user name : String)
    (perms : Nat) (newId now : Nat) : GoResult (Node × RAMTree) :=
  let owner := t.user == user
  if ! pc owner t.permissions OWRITE then .err "access denied"
  else if (mapLookup t.tree name).isSome then .err "file already exists"
  else
    let d : Node :=
      if perms &&& DMDIR ≠ 0 then
        Node.dir (NewRAMTree name
          (perms &&& (comp32 0o777 ||| (t.permissions &&& 0o777)))
          t.user t.group newId now)
      else
        Node.file (NewRAMFile name
          (perms &&& (comp32 0o666 ||| (t.permissions &&& 0o666)))
          t.user t.group newId now)
    .ok (d, { t with
                tree := mapSet t.tree name d
                mtime := now
                atime := now
                version := bump32 t.version })

/-- `RAMTree.Add`: unconditional insert (no permission check, no
clipping); still bumps times and version. -/
def RAMTree.Add (t : RAMTree) (name : String) (f : Node) (now : Nat) :
    GoResult RAMTree :=
  if (mapLookup t.tree name).isSome then .err "file already exists"
  else
    .ok { t with
            tree := mapSet t.tree name f
            mtime := now
            atime := now
            version := bump32 t.version }

/-- `RAMTree.Rename`: old-name existence check, new-name conflict check,
*then* the permission check; on success moves the mapping entry.  Note the
source bumps neither the version nor the times here. -/
def RAMTree.Rename (pc : PermCheck) (t : RAMTree)
    (user oldname newname : String) : GoResult RAMTree :=
  match mapLookup t.tree oldname with
  | none => .err "file not found"
  | some f =>
    match mapLookup t.tree newname with
    | some _ => .err "file already exists"
    | none =>
      if ! pc (t.user == user) t.permissions OWRITE then .err "access denied"
      else .ok { t with tree := mapDelete (mapSet t.tree newname f) oldname }

/-- `RAMTree.Remove`: permission check first, then look the child up,
consult its `CanRemove`, and on success delete the mapping entry and bump
times and version. -/
def RAMTree.Remove (pc : PermCheck) (t : RAMTree) (user name : String)
    (now : Nat) : GoResult RAMTree :=
  let owner := t.user == user
  if ! pc owner t.permissions OWRITE then .err "access denied"
  else
    match mapLookup t.tree name with
    | some f =>
      if ! f.CanRemove then .err "file could not be removed"
      else
        .ok { t with
                tree := mapDelete t.tree name
                mtime := now
                atime := now
                version := bump32 t.version }
    | none => .err "no such file"

/-- `RAMTree.Walk`: traverse-permission check, then linear search of the
mapping; a miss is `(nil, nil)` — no node, no error. -/
def RAMTree.Walk (pc : PermCheck) (t : RAMTree) (user name : String)
    (now : Nat) : GoResult (Option Node × RAMTree) :=
  let owner := t.user == user
  if ! pc owner t.permissions OEXEC then .err "access denied"
  else
    .ok (mapLookup t.tree name, { t with atime := now })

/-! ### Fixtures for concrete evaluations -/

/-- A permission predicate that allows everything. -/
def pcAll : PermCheck := fun _ _ _ => true

/-- A permission predicate that denies everything. -/
def pcNone : PermCheck := fun _ _ _ => false

/-- A small file child, named "a". -/
def fa : RAMFile := NewRAMFile "a" 0o644 "u" "g" 2 0

/-- A directory holding the single file child "a", at version 7. -/
def dir1 : RAMTree :=
  { tree := [("a", Node.file fa)]
    id := 1
    name := "d"
    user := "u"
    group := "g"
    muser := "u"
    version := 7
    atime := 0
    mtime := 0
    permissions := 0o755
    opens := 0 }

/-- The file obtained by writing "abcde" into a fresh file (backing array
of five bytes, length 5). -/
def f5file : RAMFile :=
  { content := ⟨[97, 98, 99, 100, 101], 5⟩
    id := 1
    name := "f"
    user := "u"
    group := "g"
    muser := "u"
    atime := 1
    mtime := 1
    version := 1
    permissions := 0o644
    opens := 0 }

/-- A metadata record requesting truncation to length 3 (other fields kept
at the file's current values). -/
def trunc3 : Stat :=
  { qid := ⟨0, 0, 0⟩
    mode := 0o644
    name := "f"
    length := 3
    uid := "u"
    gid := "g"
    muid := "m"
    atime := 0
    mtime := 0 }

/-- `f5file` after `WriteStat`-truncation to 3 bytes: visible content
"abc", backing array still "abcde". -/
def f3file : RAMFile :=
  { f5file with content := ⟨[97, 98, 99, 100, 101], 3⟩
                atime := 2
                mtime := 2
                version := 2 }

/-- Claim C1: the source's `RAMTree.Rename` bumps neither the version nor
the times of the directory.  On `dir1` (version 7), renaming "a" to "b"
with an all-allowing permission predicate succeeds, yet the resulting
directory's version still equals 7 — contradicting the requirement that
every successful mutating operation strictly increase the version. -/
theorem rename_succeeds_without_version_bump :
    RAMTree.Rename pcAll dir1 "u" "a" "b" =
      .ok { dir1 with tree := [("b", Node.file fa)] } ∧
    ({ dir1 with tree := [("b", Node.file fa)] } : RAMTree).version =
      dir1.version :=
  ⟨rfl, rfl⟩

/-- A file owned by "alice", group "staff", last modified by "bob". -/
def aliceFile : RAMFile :=
  { content := ⟨[1, 2], 2⟩
    id := 9
    name := "n"
    user := "alice"
    group := "staff"
    muser := "bob"
    atime := 3
    mtime := 4
    version := 5
    permissions := 0o644
    opens := 2 }

/-- Claim C6: `RAMFile.Stat` on a file whose owner is "alice", group is
"staff" and last-modifying user is "bob" reports both `GID` and `MUID` as
"alice" (the owner), not the node's group and muser fields; the returned
length does equal the buffer length. -/
theorem file_stat_misreports_group_and_muser :
    aliceFile.group = "staff" ∧ aliceFile.muser = "bob" ∧
    aliceFile.Stat.gid = "alice" ∧ aliceFile.Stat.muid = "alice" ∧
    aliceFile.Stat.length = aliceFile.content.len :=
  ⟨rfl, rfl, rfl, rfl, rfl⟩

/-- Claim C3: a session left at offset 5 by writing "abcde" to a fresh
file and then truncating it to 3 bytes through `WriteStat` makes `Read`
evaluate the slice expression `content[5:3]`, whose low bound exceeds its
high bound — a run-time panic, not the zero-byte success the claim
requires.  At offset exactly equal to the length, `Read` does return zero
bytes without error. -/
theorem read_past_end_panics :
    RAMOpenFile.Write ⟨0, some (NewRAMFile "f" 0o644 "u" "g" 1 0)⟩
        [97, 98, 99, 100, 101] 1 = .ok (5, ⟨5, some f5file⟩) ∧
    RAMFile.WriteStat f5file trunc3 2 = .ok f3file ∧
    f3file.content.bytes = [97, 98, 99] ∧
    RAMOpenFile.Read ⟨5, some f3file⟩ 1 3 =
      .panic "slice bounds out of range" ∧
    RAMOpenFile.Read ⟨3, some f3file⟩ 1 3 =
      .ok ([], ⟨3, some { f3file with atime := 3 }⟩) := by
  refine ⟨by decide, by decide, by decide, by decide, by decide⟩

/-- Claim C2, counterexample: on the (reachable) state `f3file` — visible
content "abc", backing array "abcde", session offset 5 — writing the
single byte "Y" succeeds and yields the 6-byte content "abcdeY": the gap
bytes `[3,5)` are the bytes retained in the slice's spare capacity (100
and 101, the old "d" and "e"), not zero as the claim states. -/
theorem growing_write_gap_not_zero_filled :
    f3file.content.bytes = [97, 98, 99] ∧
    RAMOpenFile.Write ⟨5, some f3file⟩ [89] 3 =
      .ok (1, ⟨6, some { f3file with
                           content := ⟨[97, 98, 99, 100, 101, 89], 6⟩
                           mtime := 3
                           atime := 3
                           version := 3 }⟩) ∧
    (⟨[97, 98, 99, 100, 101, 89], 6⟩ : GoSlice).bytes.getD 3 0 = 100 ∧
    (⟨[97, 98, 99, 100, 101, 89], 6⟩ : GoSlice).bytes.getD 3 0 ≠ 0 := by
  refine ⟨by decide, by decide, by decide, by decide⟩

/-- The two `copy` steps of the growing-write path reduce to appending the
written bytes after the first `offset` bytes of the old backing array. -/
lemma splice_grow (arr p : List Nat) (o : Nat) (hcap : o ≤ arr.length) :
    spliceAt (spliceAt (goMake (p.length + o)).arr 0 (min (p.length + o) o)
        arr) o (min p.length (p.length + o - o)) p = arr.take o ++ p := by
  have hlen : (arr.take o).length = o := by
    simp only [List.length_take]
    omega
  rw [show min (p.length + o) o = o by omega,
      show min p.length (p.length + o - o) = p.length by omega]
  unfold spliceAt goMake
  simp only [List.take_zero, List.nil_append, Nat.zero_add,
    List.drop_replicate, show p.length + o - o = p.length by omega]
  rw [List.take_left' hlen, List.take_length,
      List.drop_eq_nil_of_le
        (by simp only [List.length_append, List.length_replicate, hlen]
            omega),
      List.append_nil]

/-- Claim C2 (amended): when `offset + len(p)` exceeds the current content
length and the offset is within the slice's capacity, `Write` succeeds,
reports `len(p)` bytes written, grows the content to `offset + len(p)`,
and the new content is the first `offset` bytes of the old backing array
followed by `p`: the prefix up to the old length is preserved and the gap
`[len, offset)` holds the bytes retained in the spare capacity (zero
exactly when that region of the backing array was zero, e.g. freshly
allocated — not unconditionally zero).  The cursor advances to the end of
the write and the version is bumped. -/
theorem growing_write_appends_after_retained_prefix
    (f : RAMFile) (o : Nat) (p : List Nat) (now : Nat)
    (hgrow : f.content.len < o + p.length)
    (hcap : o ≤ f.content.arr.length) :
    RAMOpenFile.Write ⟨(o : Int), some f⟩ p now =
      .ok (p.length,
        ⟨((o + p.length : Nat) : Int), some { f with
            content := ⟨f.content.arr.take o ++ p, o + p.length⟩
            mtime := now
            atime := now
            version := bump32 f.version }⟩) := by
  have h1 : ((p.length : Int) + ((o : Nat) : Int) > ((f.content.len : Nat) : Int)) := by
    omega
  have h2 : ¬ (((o : Nat) : Int) < 0 ∨ ((f.content.cap : Int) < ((o : Nat) : Int))) := by
    simp only [GoSlice.cap]
    omega
  have hn : (((p.length : Int) + ((o : Nat) : Int)).toNat) = p.length + o := by
    omega
  simp only [RAMOpenFile.Write, if_pos h1, if_neg h2, hn, Int.toNat_natCast]
  rw [splice_grow f.content.arr p o hcap]
  refine congrArg GoResult.ok (Prod.ext rfl ?_)
  refine congrArg₂ RAMOpenFile.mk ?_ ?_
  · push_cast
    omega
  · rw [Nat.add_comm p.length o]

/-- A second file child, named "b". -/
def fb : RAMFile := NewRAMFile "b" 0o644 "u" "g" 3 4

/-- `dir1` as mutated by a successful `Open` at time 1. -/
def c4d1 : RAMTree := { dir1 with atime := 1, opens := 1 }

/-- The serialized one-child listing snapshot of `c4d1`. -/
def c4B1 : List Nat := dirListing c4d1.tree

/-- The session after rewinding to offset 0 at time 2 (snapshot taken). -/
def c4s1 : RAMOpenTree :=
  { t := some { c4d1 with atime := 2 }, buffer := c4B1, offset := 0 }

/-- The session after reading the full listing at time 3. -/
def c4s2 : RAMOpenTree :=
  { t := some { c4d1 with atime := 3 }, buffer := c4B1,
    offset := (c4B1.length : Int) }

/-- The directory after `Add`-ing the second child "b" at time 4. -/
def c4d2 : RAMTree :=
  { c4d1 with tree := [("a", Node.file fa), ("b", Node.file fb)]
              atime := 4
              mtime := 4
              version := bump32 dir1.version }

/-- `c4s2` seeing the mutated directory through its node pointer. -/
def c4s3 : RAMOpenTree := { c4s2 with t := some c4d2 }

/-- Claim C4, counterexample: open `dir1`, rewind, read the full listing
(cursor now at the non-zero offset `c4B1.length`), add a second child
through the directory, then seek to the current offset.  The seek is
accepted, but it is not a no-op on the snapshot: the source calls
`update` on every successful seek, so the session's buffer is recomputed
to the two-child listing, which differs from the cached one-child
snapshot. -/
theorem noop_seek_recomputes_snapshot :
    RAMTree.Open pcAll dir1 "u" OREAD 1 =
      .ok ({ t := some c4d1, buffer := [], offset := 0 }, c4d1) ∧
    RAMOpenTree.Seek { t := some c4d1, buffer := [], offset := 0 } 0 0 2 =
      .ok (0, c4s1) ∧
    RAMOpenTree.Read c4s1 500 3 = .ok (c4B1, c4s2) ∧
    RAMTree.Add { c4d1 with atime := 3 } "b" (Node.file fb) 4 = .ok c4d2 ∧
    c4s3.offset ≠ 0 ∧
    RAMOpenTree.Seek c4s3 (c4B1.length : Int) 0 5 =
      .ok ((c4B1.length : Int),
           { t := some { c4d2 with atime := 5 },
             buffer := dirListing c4d2.tree,
             offset := (c4B1.length : Int) }) ∧
    dirListing c4d2.tree ≠ c4B1 := by
  refine ⟨rfl, rfl, rfl, rfl, by decide, rfl, by decide⟩

/-- A successful directory seek: when the whence-resolved target is `r`,
`r` is not negative and `r` is 0 or the current offset, `Seek` returns
`r` and the re-snapshotted session. -/
lemma seek_ok_of_target (ot : RAMOpenTree) (t : RAMTree)
    (off whence : Int) (now : Nat) (r : Int) (h : ot.t = some t)
    (htgt : (if whence = 0 then some off
             else if whence = 1 then some (ot.offset + off)
             else if whence = 2 then some ((ot.buffer.length : Int) + off)
             else none) = some r)
    (h0 : ¬ r < 0) (hne : ¬ (r ≠ 0 ∧ r ≠ ot.offset)) :
    RAMOpenTree.Seek ot off whence now =
      .ok (r, { t := some { t with atime := now },
                buffer := dirListing t.tree, offset := r }) := by
  simp only [RAMOpenTree.Seek, RAMOpenTree.update, h, htgt]
  rw [if_neg h0, if_neg hne]

/-- Claim C4 (amended): a directory-session `Seek` accepts exactly the
resulting offsets 0 and the session's current offset and rejects every
other resulting offset; but every successful seek — the rewind *and* the
seek to the current offset — recomputes the snapshot buffer from the live
mapping (the no-op target is not a snapshot no-op). -/
theorem dir_seek_targets_and_resnapshot
    (ot : RAMOpenTree) (t : RAMTree) (off whence : Int) (now : Nat)
    (r : Int) (s2 : RAMOpenTree) (h : ot.t = some t) :
    (RAMOpenTree.Seek ot off whence now = .ok (r, s2) →
       (r = 0 ∨ r = ot.offset) ∧ s2.buffer = dirListing t.tree ∧
       s2.offset = r ∧ s2.t = some { t with atime := now }) ∧
    (0 ≤ r → (r = 0 ∨ r = ot.offset) →
       ((whence = 0 ∧ r = off) ∨ (whence = 1 ∧ r = ot.offset + off) ∨
         (whence = 2 ∧ r = (ot.buffer.length : Int) + off)) →
       RAMOpenTree.Seek ot off whence now =
         .ok (r, { t := some { t with atime := now },
                   buffer := dirListing t.tree, offset := r })) := by
  constructor
  · intro hok
    simp only [RAMOpenTree.Seek, RAMOpenTree.update, h] at hok
    split at hok
    · exact absurd hok (by simp)
    · rename_i off2 htgt
      split at hok
      · exact absurd hok (by simp)
      · split at hok
        · exact absurd hok (by simp)
        · rename_i hneg hother
          push_neg at hother
          rw [GoResult.ok.injEq, Prod.mk.injEq] at hok
          obtain ⟨h1, h2⟩ := hok
          subst h1
          subst h2
          refine ⟨?_, rfl, rfl, rfl⟩
          by_cases hz : off2 = 0
          · exact Or.inl hz
          · exact Or.inr (hother hz)
  · intro h0 hor hcase
    have hne : ¬ (r ≠ 0 ∧ r ≠ ot.offset) := by tauto
    have hnneg : ¬ r < 0 := by omega
    rcases hcase with ⟨hw, hr⟩ | ⟨hw, hr⟩ | ⟨hw, hr⟩ <;> subst hw <;>
      exact seek_ok_of_target ot t off _ now r h (by simp [hr]) hnneg hne

/-- The result session of the no-op-target seek in the C4 trace. -/
def c4s4 : RAMOpenTree :=
  { t := some { c4d2 with atime := 5 }, buffer := dirListing c4d2.tree,
    offset := (c4B1.length : Int) }

/-- Witness for `dir_seek_targets_and_resnapshot`: the no-op-target seek
of the C4 trace, with every hypothesis discharged concretely. -/
theorem dir_seek_targets_and_resnapshot_witness :
    RAMOpenTree.Seek c4s3 (c4B1.length : Int) 0 5 =
      .ok ((c4B1.length : Int), c4s4) :=
  (dir_seek_targets_and_resnapshot c4s3 c4d2 (c4B1.length : Int) 0 5
      (c4B1.length : Int) c4s3 rfl).2 (by decide) (Or.inr (by decide))
    (Or.inl ⟨rfl, rfl⟩)

/-- Shape of every successful directory-session read: the snapshot buffer
is untouched, the node is only touched to refresh its access time, the
returned bytes are a window of the cached buffer starting at the cursor,
and the cursor advances by the number of bytes returned. -/
lemma dir_read_ok_shape (ot : RAMOpenTree) (t : RAMTree) (plen now : Nat)
    (bytes : List Nat) (s2 : RAMOpenTree) (h : ot.t = some t)
    (hok : RAMOpenTree.Read ot plen now = .ok (bytes, s2)) :
    s2.buffer = ot.buffer ∧ s2.t = some { t with atime := now } ∧
    bytes = (ot.buffer.drop ot.offset.toNat).take
      (min plen (ot.buffer.length - ot.offset.toNat)) ∧
    s2.offset = ot.offset + bytes.length := by
  simp only [RAMOpenTree.Read, h] at hok
  split at hok
  · exact absurd hok (by simp)
  · rename_i hcond
    push_neg at hcond
    obtain ⟨hc1, hc2, hc3⟩ := hcond
    rw [GoResult.ok.injEq, Prod.mk.injEq] at hok
    obtain ⟨hb, hs⟩ := hok
    subst hb
    subst hs
    refine ⟨rfl, rfl, ?_, ?_⟩
    · congr 1
      omega
    · simp only [List.length_take, List.length_drop]
      omega

/-- File child "x" of the C5 scenario directory. -/
def fx : RAMFile := NewRAMFile "x" 0o644 "u" "g" 4 0

/-- File child "y" of the C5 scenario directory. -/
def fy : RAMFile := NewRAMFile "y" 0o644 "u" "g" 5 0

/-- A directory with the two file children "x" and "y". -/
def c5d0 : RAMTree :=
  { tree := [("x", Node.file fx), ("y", Node.file fy)]
    id := 6
    name := "e"
    user := "u"
    group := "g"
    muser := "u"
    version := 0
    atime := 0
    mtime := 0
    permissions := 0o755
    opens := 0 }

/-- `c5d0` as mutated by a successful `Open` at time 1. -/
def c5d1 : RAMTree := { c5d0 with atime := 1, opens := 1 }

/-- The serialized two-child listing snapshot. -/
def c5B2 : List Nat := dirListing c5d1.tree

/-- The session after rewinding to offset 0 at time 2 (snapshot taken). -/
def c5s1 : RAMOpenTree :=
  { t := some { c5d1 with atime := 2 }, buffer := c5B2, offset := 0 }

/-- The session after reading the full two-child listing at time 3. -/
def c5s2 : RAMOpenTree :=
  { t := some { c5d1 with atime := 3 }, buffer := c5B2,
    offset := (c5B2.length : Int) }

/-- The third child "z", as built by `Create` (permission bits clipped
against the parent's 0666 class). -/
def c5z : Node :=
  Node.file (NewRAMFile "z"
    (0o644 &&& (comp32 0o666 ||| (c5d0.permissions &&& 0o666))) "u" "g" 7 4)

/-- The directory after `Create`-ing "z" at time 4. -/
def c5d2 : RAMTree :=
  { c5d1 with tree := [("x", Node.file fx), ("y", Node.file fy), ("z", c5z)]
              atime := 4
              mtime := 4
              version := 1 }

/-- `c5s2` seeing the mutated directory through its node pointer. -/
def c5s3 : RAMOpenTree := { c5s2 with t := some c5d2 }

/-- The session after the rewind at time 6: three-child snapshot. -/
def c5s5 : RAMOpenTree :=
  { t := some { c5d2 with atime := 6 }, buffer := dirListing c5d2.tree,
    offset := 0 }

/-- Claim C5: a directory-session `Read` streams from the cached snapshot
buffer only, never recomputing it (first conjunct, for any session: the
buffer is unchanged, the node is touched only for its access time, and
the bytes come from the cached buffer); and the spec's scenario (remaining
conjuncts): read the full two-child listing, create a third child through
the directory, read again without seeking — zero new bytes; after a
`Seek` to offset 0, a read returns the three-entry listing. -/
theorem dir_read_streams_from_snapshot
    (ot : RAMOpenTree) (t : RAMTree) (plen now : Nat) (bytes : List Nat)
    (s2 : RAMOpenTree) :
    (ot.t = some t → RAMOpenTree.Read ot plen now = .ok (bytes, s2) →
       s2.buffer = ot.buffer ∧ s2.t = some { t with atime := now } ∧
       bytes = (ot.buffer.drop ot.offset.toNat).take
         (min plen (ot.buffer.length - ot.offset.toNat)) ∧
       s2.offset = ot.offset + bytes.length) ∧
    (RAMTree.Open pcAll c5d0 "u" OREAD 1 =
       .ok ({ t := some c5d1, buffer := [], offset := 0 }, c5d1) ∧
     RAMOpenTree.Seek { t := some c5d1, buffer := [], offset := 0 } 0 0 2 =
       .ok (0, c5s1) ∧
     RAMOpenTree.Read c5s1 500 3 = .ok (c5B2, c5s2) ∧
     RAMTree.Create pcAll { c5d1 with atime := 3 } "u" "z" 0o644 7 4 =
       .ok (c5z, c5d2) ∧
     RAMOpenTree.Read c5s3 500 5 =
       .ok ([], { c5s3 with t := some { c5d2 with atime := 5 } }) ∧
     RAMOpenTree.Seek { c5s3 with t := some { c5d2 with atime := 5 } }
         0 0 6 = .ok (0, c5s5) ∧
     RAMOpenTree.Read c5s5 500 7 =
       .ok (dirListing c5d2.tree,
            { t := some { c5d2 with atime := 7 },
              buffer := dirListing c5d2.tree,
              offset := ((dirListing c5d2.tree).length : Int) }) ∧
     c5d2.tree.length = 3 ∧
     dirListing c5d2.tree =
       encodeStat (Node.file fx).Stat ++ encodeStat (Node.file fy).Stat ++
         encodeStat c5z.Stat) :=
  ⟨fun h hok => dir_read_ok_shape ot t plen now bytes s2 h hok,
   rfl, rfl, rfl, rfl, rfl, rfl, rfl, rfl, rfl⟩

/-- Witness for `dir_read_streams_from_snapshot`: the scenario's first
full read, with the hypotheses of the general conjunct discharged
concretely. -/
theorem dir_read_streams_from_snapshot_witness :
    c5s2.buffer = c5s1.buffer ∧ c5s2.offset = c5s1.offset + c5B2.length :=
  ⟨((dir_read_streams_from_snapshot c5s1 { c5d1 with atime := 2 } 500 3
        c5B2 c5s2).1 rfl rfl).1,
   (((dir_read_streams_from_snapshot c5s1 { c5d1 with atime := 2 } 500 3
        c5B2 c5s2).1 rfl rfl).2).2.2⟩

/-- Witness for `growing_write_appends_after_retained_prefix`: the C2
trace's final write, with both hypotheses discharged concretely. -/
theorem growing_write_appends_after_retained_prefix_witness :
    f3file.content.len < 5 + ([89] : List Nat).length ∧
    RAMOpenFile.Write ⟨((5 : Nat) : Int), some f3file⟩ [89] 3 =
      .ok (([89] : List Nat).length,
        ⟨((5 + ([89] : List Nat).length : Nat) : Int), some { f3file with
            content := ⟨f3file.content.arr.take 5 ++ [89],
                        5 + ([89] : List Nat).length⟩
            mtime := 3
            atime := 3
            version := bump32 f3file.version }⟩) :=
  ⟨by decide,
   growing_write_appends_after_retained_prefix f3file 5 [89] 3 (by decide)
     (by decide)⟩

/-- Claim C10: `RAMTree.Rename` checks the names before the permission:
an absent old name reports "file not found" and an occupied new name
reports "file already exists" for *any* permission predicate, and the
"access denied" outcome occurs only when the old name is present, the new
name is free, and the predicate denied write access. -/
theorem rename_checks_names_before_permission (pc : PermCheck)
    (t : RAMTree) (user oldname newname : String) :
    (mapLookup t.tree oldname = none →
       RAMTree.Rename pc t user oldname newname = .err "file not found") ∧
    ((mapLookup t.tree oldname).isSome = true →
       (mapLookup t.tree newname).isSome = true →
       RAMTree.Rename pc t user oldname newname =
         .err "file already exists") ∧
    (RAMTree.Rename pc t user oldname newname = .err "access denied" →
       (mapLookup t.tree oldname).isSome = true ∧
       mapLookup t.tree newname = none ∧
       pc (t.user == user) t.permissions OWRITE = false) := by
  refine ⟨?_, ?_, ?_⟩
  · intro hnone
    simp [RAMTree.Rename, hnone]
  · intro h1 h2
    rcases hold : mapLookup t.tree oldname with _ | f
    · rw [hold] at h1
      exact absurd h1 (by simp)
    · rcases hnew : mapLookup t.tree newname with _ | g
      · rw [hnew] at h2
        exact absurd h2 (by simp)
      · simp [RAMTree.Rename, hold, hnew]
  · intro hden
    rcases hold : mapLookup t.tree oldname with _ | f
    · simp only [RAMTree.Rename, hold] at hden
      injection hden with hh
      exact absurd hh (by decide)
    · rcases hnew : mapLookup t.tree newname with _ | g
      · simp only [RAMTree.Rename, hold, hnew] at hden
        refine ⟨rfl, rfl, ?_⟩
        by_cases hpc : pc (t.user == user) t.permissions OWRITE = true
        · rw [hpc] at hden
          simp only [Bool.not_true, if_neg] at hden
          exact absurd hden (fun hh => by
            exact GoResult.noConfusion hh)
        · simpa using hpc
      · simp only [RAMTree.Rename, hold, hnew] at hden
        injection hden with hh
        exact absurd hh (by decide)

/-- Witness for `rename_checks_names_before_permission`: with a deny-all
predicate, an absent old name still reports "file not found" and an
occupied new name still reports "file already exists". -/
theorem rename_checks_names_before_permission_witness :
    RAMTree.Rename pcNone dir1 "u" "zz" "b" = .err "file not found" ∧
    RAMTree.Rename pcNone dir1 "u" "a" "a" = .err "file already exists" :=
  ⟨(rename_checks_names_before_permission pcNone dir1 "u" "zz" "b").1 rfl,
   (rename_checks_names_before_permission pcNone dir1 "u" "a" "a").2.1
     rfl rfl⟩

/-- Claim C7: `RAMTree.Remove` reports "access denied" whenever the
permission predicate denies write access; with write access it reports
"file could not be removed" when the named child is a directory with a
non-empty mapping (returning no mutated state, so mapping and version are
untouched); and it succeeds for a file child — regardless of the file's
open count — deleting the mapping entry and bumping the version. -/
theorem remove_permission_removability_cases (pc : PermCheck) (t : RAMTree)
    (user name : String) (now : Nat) (sub : RAMTree) (f : RAMFile) :
    (pc (t.user == user) t.permissions OWRITE = false →
       RAMTree.Remove pc t user name now = .err "access denied") ∧
    (pc (t.user == user) t.permissions OWRITE = true →
       mapLookup t.tree name = some (Node.dir sub) → sub.tree ≠ [] →
       RAMTree.Remove pc t user name now =
         .err "file could not be removed") ∧
    (pc (t.user == user) t.permissions OWRITE = true →
       mapLookup t.tree name = some (Node.file f) →
       RAMTree.Remove pc t user name now =
         .ok { t with tree := mapDelete t.tree name, mtime := now,
                      atime := now, version := bump32 t.version }) := by
  refine ⟨?_, ?_, ?_⟩
  · intro hpc
    simp [RAMTree.Remove, hpc]
  · intro hpc hlook hne
    have hcr : (Node.dir sub).CanRemove = false := by
      cases htree : sub.tree with
      | nil => exact absurd htree hne
      | cons a l => simp [Node.dir, Node.CanRemove, htree]
    simp [RAMTree.Remove, hpc, hlook, hcr]
  · intro hpc hlook
    simp [RAMTree.Remove, hpc, hlook, Node.CanRemove]

/-- Witness for `remove_permission_removability_cases`: removing the file
child "a" of `dir1` succeeds, deletes the entry and bumps the version. -/
theorem remove_permission_removability_cases_witness :
    RAMTree.Remove pcAll dir1 "u" "a" 5 =
      .ok { dir1 with tree := mapDelete dir1.tree "a", mtime := 5,
                      atime := 5, version := bump32 dir1.version } :=
  (remove_permission_removability_cases pcAll dir1 "u" "a" 5 dir1 fa).2.2
    rfl rfl

/-- Claim C9: `RAMTree.Open` does not compute the listing snapshot — the
fresh session carries Go's zero values, an empty buffer and offset 0 — so
on any directory with at least one child, a `Read` issued before any
`Seek` returns zero bytes and no error. -/
theorem fresh_dir_session_reads_empty (pc : PermCheck) (t : RAMTree)
    (user : String) (mode now plen now2 : Nat)
    (hne : t.tree ≠ [])
    (hpc : pc (t.user == user) t.permissions mode = true) :
    RAMTree.Open pc t user mode now =
      .ok ({ t := some { t with atime := now, opens := t.opens + 1 },
             buffer := [], offset := 0 },
           { t with atime := now, opens := t.opens + 1 }) ∧
    RAMOpenTree.Read
        { t := some { t with atime := now, opens := t.opens + 1 },
          buffer := [], offset := 0 } plen now2 =
      .ok ([], { t := some { t with atime := now2, opens := t.opens + 1 },
                 buffer := [], offset := 0 }) := by
  have hchild : t.tree ≠ [] := hne
  constructor
  · simp [RAMTree.Open, hpc]
  · have hmin : min ((plen : Int)) (((List.length ([] : List Nat)) : Int) - 0)
        = 0 := by
      simp
    simp only [RAMOpenTree.Read, hmin, List.drop_nil, List.take_nil]
    rw [if_neg (by omega)]
    norm_num

/-- Witness for `fresh_dir_session_reads_empty`: opening `dir1` (one
child) with the allow-all predicate and reading immediately. -/
theorem fresh_dir_session_reads_empty_witness :
    RAMTree.Open pcAll dir1 "u" OREAD 1 =
      .ok ({ t := some { dir1 with atime := 1, opens := dir1.opens + 1 },
             buffer := [], offset := 0 },
           { dir1 with atime := 1, opens := dir1.opens + 1 }) ∧
    RAMOpenTree.Read
        { t := some { dir1 with atime := 1, opens := dir1.opens + 1 },
          buffer := [], offset := 0 } 64 9 =
      .ok ([], { t := some { dir1 with atime := 9, opens := dir1.opens + 1 },
                 buffer := [], offset := 0 }) :=
  fresh_dir_session_reads_empty pcAll dir1 "u" OREAD 1 64 9
    (by simp [dir1]) rfl

/-- Bit-level reading of the permission clip `req & (^m | (par & m))` on
`uint32` values: inside the mask the bit must be set in both the request
and the parent; outside the mask (but within 32 bits) the request bit
passes through. -/
lemma testBit_clip (req par m i : Nat) (hi : i < 32) :
    (req &&& (comp32 m ||| (par &&& m))).testBit i =
      (req.testBit i && (! m.testBit i || par.testBit i)) := by
  simp only [comp32, Nat.testBit_land, Nat.testBit_lor, Nat.testBit_xor,
    Nat.testBit_two_pow_sub_one, decide_eq_true_eq]
  have hd : decide (i < 32) = true := by simpa using hi
  rw [hd]
  cases hreq : req.testBit i <;> cases hm : m.testBit i <;>
    cases hpar : par.testBit i <;> simp

/-- Claim C8: a successful `Create` clips the child's permission bits to
the parent's corresponding class: for each bit position below 32, inside
the class mask (0777 for a new directory, 0666 for a new file) the
child's bit is the conjunction of the requested bit and the parent's bit,
and outside the mask the child's bit equals the requested bit. -/
theorem create_clips_child_permission_bits (pc : PermCheck) (t : RAMTree)
    (user name : String) (perms newId now : Nat) (c : Node) (t2 : RAMTree)
    (i : Nat) (hi : i < 32)
    (hok : RAMTree.Create pc t user name perms newId now = .ok (c, t2)) :
    (perms &&& DMDIR ≠ 0 →
       ((Nat.testBit 0o777 i = true →
          c.permissions.testBit i =
            (perms.testBit i && t.permissions.testBit i)) ∧
        (Nat.testBit 0o777 i = false →
          c.permissions.testBit i = perms.testBit i))) ∧
    (perms &&& DMDIR = 0 →
       ((Nat.testBit 0o666 i = true →
          c.permissions.testBit i =
            (perms.testBit i && t.permissions.testBit i)) ∧
        (Nat.testBit 0o666 i = false →
          c.permissions.testBit i = perms.testBit i))) := by
  simp only [RAMTree.Create] at hok
  split at hok
  · exact absurd hok (by simp)
  · split at hok
    · exact absurd hok (by simp)
    · rw [GoResult.ok.injEq, Prod.mk.injEq] at hok
      obtain ⟨hc, -⟩ := hok
      constructor
      · intro hdir
        rw [if_pos hdir] at hc
        subst hc
        refine ⟨fun hm => ?_, fun hm => ?_⟩ <;>
          simp [Node.dir, Node.permissions, NewRAMTree,
            testBit_clip perms t.permissions 0o777 i hi, hm]
      · intro hfile
        rw [if_neg (by simp [hfile])] at hc
        subst hc
        refine ⟨fun hm => ?_, fun hm => ?_⟩ <;>
          simp [Node.permissions, NewRAMFile,
            testBit_clip perms t.permissions 0o666 i hi, hm]

/-- The file child created in the C8 witness (requested mode 0707,
parent mode 0755). -/
def c8node : Node :=
  Node.file (NewRAMFile "w"
    (0o707 &&& (comp32 0o666 ||| (dir1.permissions &&& 0o666)))
    dir1.user dir1.group 9 6)

/-- `dir1` after the C8 witness `Create`. -/
def c8tree : RAMTree :=
  { dir1 with tree := mapSet dir1.tree "w" c8node, mtime := 6, atime := 6,
              version := bump32 dir1.version }

/-- Witness for `create_clips_child_permission_bits`: creating a file
with requested mode 0707 under the 0755 parent; the group-write bit
(position 4) is inside the 0666 mask, requested (0707 has it clear —
use position 1, the other-write bit, which 0707 sets but 0755 clears). -/
theorem create_clips_child_permission_bits_witness :
    RAMTree.Create pcAll dir1 "u" "w" 0o707 9 6 = .ok (c8node, c8tree) ∧
    c8node.permissions.testBit 1 =
      (Nat.testBit 0o707 1 && dir1.permissions.testBit 1) :=
  ⟨rfl,
   ((create_clips_child_permission_bits pcAll dir1 "u" "w" 0o707 9 6
        c8node c8tree 1 (by decide) rfl).2 (by decide)).1 (by decide)⟩

end Ramtree
